import Mathlib

/-!
Verification of the makeup price-scraper's sale-rule and price-evaluation
engine (`parser.py`, `make_xlsx.py`).

The Python sources evaluate the per-rule price formula with `eval` on the
single variable `x` bound to the base price.  The formulas actually supported
by the configuration grammar are arithmetic over `+ - * /`, comparisons
`< > <= >= ==` and the conditional form `A if COND else B`.  We embed this as
a tokenizer, recursive-descent parsing functions (fuelled, mirroring Python's
expression grammar restricted to that subset) and an evaluator over ℚ.
Python floats are modelled as exact rationals; all quantities appearing in
the configuration and the claims are exact in both semantics.  A Python
`NameError` (unknown identifier) and a `SyntaxError` are both folded into
evaluation failure (`none`), which is indistinguishable in the source: both
are caught by the same `except Exception` handler.
-/

namespace Makeup

deriving instance DecidableEq for Except

/-- Tokens of the Python expression subset used in `price_formula`. -/
inductive Tok where
  | num (n : Nat)
  | ident (s : String)
  | plus | minus | star | slash
  | ltTok | gtTok | leTok | geTok | eqTok
  | kif | kelse
  | lparen | rparen
deriving DecidableEq, Repr

/-- Value of a run of decimal digits. -/
def digitsToNat (ds : List Char) : Nat :=
  ds.foldl (fun acc c => acc * 10 + (c.toNat - 48)) 0

/-- Keyword recognition for identifier runs. -/
def identTok (s : String) : Tok :=
  if s = "if" then Tok.kif else if s = "else" then Tok.kelse else Tok.ident s

def isIdentChar (c : Char) : Bool :=
  c.isAlpha || c.isDigit || c = '_'

/-- Fuelled tokenizer.  Returns `none` on any character outside the
supported formula subset (Python would raise a `SyntaxError`, later caught
by the formula-evaluation handler). -/
def tokenizeAux : Nat → List Char → List Tok → Option (List Tok)
  | 0, _, _ => none
  | _ + 1, [], acc => some acc.reverse
  | fuel + 1, c :: rest, acc =>
    if c = ' ' then tokenizeAux fuel rest acc
    else if c.isDigit then
      let ds := List.takeWhile Char.isDigit (c :: rest)
      tokenizeAux fuel (List.dropWhile Char.isDigit (c :: rest)) (Tok.num (digitsToNat ds) :: acc)
    else if c.isAlpha || c = '_' then
      let cs := List.takeWhile isIdentChar (c :: rest)
      tokenizeAux fuel (List.dropWhile isIdentChar (c :: rest)) (identTok (String.mk cs) :: acc)
    else if c = '+' then tokenizeAux fuel rest (Tok.plus :: acc)
    else if c = '-' then tokenizeAux fuel rest (Tok.minus :: acc)
    else if c = '*' then tokenizeAux fuel rest (Tok.star :: acc)
    else if c = '/' then tokenizeAux fuel rest (Tok.slash :: acc)
    else if c = '(' then tokenizeAux fuel rest (Tok.lparen :: acc)
    else if c = ')' then tokenizeAux fuel rest (Tok.rparen :: acc)
    else if c = '<' then
      match rest with
      | '=' :: rest2 => tokenizeAux fuel rest2 (Tok.leTok :: acc)
      | _ => tokenizeAux fuel rest (Tok.ltTok :: acc)
    else if c = '>' then
      match rest with
      | '=' :: rest2 => tokenizeAux fuel rest2 (Tok.geTok :: acc)
      | _ => tokenizeAux fuel rest (Tok.gtTok :: acc)
    else if c = '=' then
      match rest with
      | '=' :: rest2 => tokenizeAux fuel rest2 (Tok.eqTok :: acc)
      | _ => none
    else none

def tokenize (s : String) : Option (List Tok) :=
  tokenizeAux (s.length + 1) s.toList []

/-- Comparison operators of the formula subset. -/
inductive CmpOp where
  | lt | gt | le | ge | eq
deriving DecidableEq, Repr

/-- Abstract syntax of the supported formula subset. -/
inductive Expr where
  | num (n : Nat)
  | var (name : String)
  | neg (a : Expr)
  | add (a b : Expr)
  | sub (a b : Expr)
  | mul (a b : Expr)
  | div (a b : Expr)
  | cmp (op : CmpOp) (a b : Expr)
  | cond (t c e : Expr)
deriving DecidableEq, Repr

mutual

/-- Conditional expression: `A if C else B`, right associative, lowest
precedence (Python `conditional_expression`). -/
def parseTernary : Nat → List Tok → Option (Expr × List Tok)
  | 0, _ => none
  | fuel + 1, ts => do
    let (a, r) ← parseCmp fuel ts
    match r with
    | Tok.kif :: r1 => do
      let (c, r2) ← parseCmp fuel r1
      match r2 with
      | Tok.kelse :: r3 => do
        let (b, r4) ← parseTernary fuel r3
        pure (Expr.cond a c b, r4)
      | _ => none
    | _ => pure (a, r)

/-- Comparison (single, unchained; configuration formulas never chain). -/
def parseCmp : Nat → List Tok → Option (Expr × List Tok)
  | 0, _ => none
  | fuel + 1, ts => do
    let (a, r) ← parseAdd fuel ts
    match r with
    | Tok.ltTok :: r1 => do
      let (b, r2) ← parseAdd fuel r1
      pure (Expr.cmp CmpOp.lt a b, r2)
    | Tok.gtTok :: r1 => do
      let (b, r2) ← parseAdd fuel r1
      pure (Expr.cmp CmpOp.gt a b, r2)
    | Tok.leTok :: r1 => do
      let (b, r2) ← parseAdd fuel r1
      pure (Expr.cmp CmpOp.le a b, r2)
    | Tok.geTok :: r1 => do
      let (b, r2) ← parseAdd fuel r1
      pure (Expr.cmp CmpOp.ge a b, r2)
    | Tok.eqTok :: r1 => do
      let (b, r2) ← parseAdd fuel r1
      pure (Expr.cmp CmpOp.eq a b, r2)
    | _ => pure (a, r)

/-- Additive level, left associative. -/
def parseAdd : Nat → List Tok → Option (Expr × List Tok)
  | 0, _ => none
  | fuel + 1, ts => do
    let (a, r) ← parseMul fuel ts
    parseAddRest fuel a r

def parseAddRest : Nat → Expr → List Tok → Option (Expr × List Tok)
  | 0, _, _ => none
  | fuel + 1, a, ts =>
    match ts with
    | Tok.plus :: r1 => do
      let (b, r2) ← parseMul fuel r1
      parseAddRest fuel (Expr.add a b) r2
    | Tok.minus :: r1 => do
      let (b, r2) ← parseMul fuel r1
      parseAddRest fuel (Expr.sub a b) r2
    | _ => pure (a, ts)

/-- Multiplicative level, left associative. -/
def parseMul : Nat → List Tok → Option (Expr × List Tok)
  | 0, _ => none
  | fuel + 1, ts => do
    let (a, r) ← parseUnary fuel ts
    parseMulRest fuel a r

def parseMulRest : Nat → Expr → List Tok → Option (Expr × List Tok)
  | 0, _, _ => none
  | fuel + 1, a, ts =>
    match ts with
    | Tok.star :: r1 => do
      let (b, r2) ← parseUnary fuel r1
      parseMulRest fuel (Expr.mul a b) r2
    | Tok.slash :: r1 => do
      let (b, r2) ← parseUnary fuel r1
      parseMulRest fuel (Expr.div a b) r2
    | _ => pure (a, ts)

/-- Unary minus. -/
def parseUnary : Nat → List Tok → Option (Expr × List Tok)
  | 0, _ => none
  | fuel + 1, ts =>
    match ts with
    | Tok.minus :: r1 => do
      let (a, r2) ← parseUnary fuel r1
      pure (Expr.neg a, r2)
    | _ => parseAtom fuel ts

def parseAtom : Nat → List Tok → Option (Expr × List Tok)
  | 0, _ => none
  | fuel + 1, ts =>
    match ts with
    | Tok.num n :: r => pure (Expr.num n, r)
    | Tok.ident s :: r => pure (Expr.var s, r)
    | Tok.lparen :: r => do
      let (a, r1) ← parseTernary fuel r
      match r1 with
      | Tok.rparen :: r2 => pure (a, r2)
      | _ => none
    | _ => none

end

/-- Python run-time values arising from the formula subset: numbers
(modelled exactly as rationals) and booleans. -/
inductive PyVal where
  | num (q : ℚ)
  | bool (b : Bool)
deriving DecidableEq

/-- Numeric coercion; Python's `bool` is an `int` subtype with
`True == 1`, `False == 0`, so this is exact. -/
def PyVal.toRat : PyVal → ℚ
  | num q => q
  | bool b => if b then 1 else 0

/-- Python truthiness of a formula value. -/
def PyVal.truthy : PyVal → Bool
  | num q => decide (q ≠ 0)
  | bool b => b

def cmpEval (op : CmpOp) (a b : ℚ) : Bool :=
  match op with
  | CmpOp.lt => decide (a < b)
  | CmpOp.gt => decide (b < a)
  | CmpOp.le => decide (a ≤ b)
  | CmpOp.ge => decide (b ≤ a)
  | CmpOp.eq => decide (a = b)

/-- Evaluation of a formula expression with the single Python name `x`
bound to the base price.  `none` models a raised exception
(`ZeroDivisionError`, `NameError`).  Like Python, the conditional
evaluates its condition first and only the taken branch. -/
def evalExpr : Expr → ℚ → Option PyVal
  | Expr.num n, _ => some (PyVal.num n)
  | Expr.var s, x => if s = "x" then some (PyVal.num x) else none
  | Expr.neg a, x => do
    let va ← evalExpr a x
    pure (PyVal.num (-(va.toRat)))
  | Expr.add a b, x => do
    let va ← evalExpr a x
    let vb ← evalExpr b x
    pure (PyVal.num (va.toRat + vb.toRat))
  | Expr.sub a b, x => do
    let va ← evalExpr a x
    let vb ← evalExpr b x
    pure (PyVal.num (va.toRat - vb.toRat))
  | Expr.mul a b, x => do
    let va ← evalExpr a x
    let vb ← evalExpr b x
    pure (PyVal.num (va.toRat * vb.toRat))
  | Expr.div a b, x => do
    let va ← evalExpr a x
    let vb ← evalExpr b x
    if vb.toRat = 0 then none else pure (PyVal.num (va.toRat / vb.toRat))
  | Expr.cmp op a b, x => do
    let va ← evalExpr a x
    let vb ← evalExpr b x
    pure (PyVal.bool (cmpEval op va.toRat vb.toRat))
  | Expr.cond t c e, x => do
    let vc ← evalExpr c x
    if vc.truthy then evalExpr t x else evalExpr e x

/-- Compilation phase of Python `eval`: tokenize and parse the whole
string; leftover tokens mean a syntax error. -/
def parseFormula (s : String) : Option Expr := do
  let ts ← tokenize s
  let (e, rest) ← parseTernary (10 * ts.length + 10) ts
  if rest = [] then some e else none

/-- Embeds `eval(sale_params.price_formula)` with `x = base_price`
(`parser.py:182-183`): parse, evaluate, and coerce the result to a
number as it is stored into `price`. -/
def evalFormula (s : String) (x : ℚ) : Option ℚ := do
  let e ← parseFormula s
  let v ← evalExpr e x
  pure v.toRat

/-- Parse tree of the configured formula `x*2/3`. -/
theorem parseFormula_mul_div :
    parseFormula "x*2/3"
      = some (Expr.div (Expr.mul (Expr.var "x") (Expr.num 2)) (Expr.num 3)) := by
  decide

/-- Parse tree of the configured formula `x-100 if x>680 else x`. -/
theorem parseFormula_ternary :
    parseFormula "x-100 if x>680 else x"
      = some (Expr.cond (Expr.sub (Expr.var "x") (Expr.num 100))
          (Expr.cmp CmpOp.gt (Expr.var "x") (Expr.num 680)) (Expr.var "x")) := by
  decide

/-- The formula `x*2/3` evaluates exactly, with unrounded rational
division. -/
theorem evalFormula_mul_div (x : ℚ) : evalFormula "x*2/3" x = some (x * 2 / 3) := by
  simp [evalFormula, parseFormula_mul_div, evalExpr, PyVal.toRat]

/-- The formula `x-100 if x>680 else x` evaluates to the guarded
subtraction. -/
theorem evalFormula_ternary (x : ℚ) :
    evalFormula "x-100 if x>680 else x" x = some (if 680 < x then x - 100 else x) := by
  simp [evalFormula, parseFormula_ternary, evalExpr, PyVal.toRat, PyVal.truthy, cmpEval]
  split <;> simp

example : evalFormula "x-100 if x>680 else x" 500 = some 500 := by decide
example : evalFormula "x/0" 7 = none := by decide
example : evalFormula "x+" 7 = none := by decide

/-! ## String helpers -/

/-- Python's substring operator `needle in hay`, char-list based so that the
kernel can evaluate it. -/
def listHas (needle hay : List Char) : Bool :=
  hay.tails.any (fun t => needle.isPrefixOf t)

def strContains (needle hay : String) : Bool :=
  listHas needle.toList hay.toList

/-- The apostrophe character, used by the Python error-message template
`Error applying sale formula '<formula>'`. -/
def apos : String := (Char.ofNat 39).toString

/-- Python `a or b` on an optional string: `b` when `a` is `None` or empty. -/
def pyOrStr (a : Option String) (b : String) : String :=
  match a with
  | none => b
  | some t => if t = "" then b else t

/-! ## Data model (`parser.py`) -/

/-- Models the two-key `apply_to` dict of a sale rule. -/
structure ApplyTo where
  ua : Bool
  eu : Bool
deriving DecidableEq, Repr

/-- Embeds `SaleParams` (`parser.py:14-34`).  The two display-color fields
(`price_background_color_hex`, `price_font_color_hex`, normalized by
`normalize_hex_color`) are display metadata untouched by every claim and
are omitted from the embedding. -/
structure SaleParams where
  text_for_search : String
  apply_to : ApplyTo
  price_formula : String
  info_text : Option String := none
deriving DecidableEq, Repr

/-- A configuration rule entry as a raw dict: `data["k"]` raises `KeyError`
when the field is `none`, `data.get("k")` yields the option itself. -/
structure RuleDict where
  text_for_search : Option String := none
  apply_to : Option ApplyTo := none
  price_formula : Option String := none
  info_text : Option String := none
deriving DecidableEq, Repr

/-- Python exceptions observable in the embedded fragment. -/
inductive PyErr where
  | keyError (key : String)
  | attrError
deriving DecidableEq, Repr

/-- Embeds `SaleParams.from_dict` (`parser.py:24-34`): the three bracket accesses
raise `KeyError` on a missing key, in source order; `info_text` uses
`.get` and never raises.  No validation of `price_formula` happens here. -/
def SaleParams.from_dict (d : RuleDict) : Except PyErr SaleParams :=
  match d.text_for_search with
  | none => .error (PyErr.keyError "text_for_search")
  | some ts =>
    match d.apply_to with
    | none => .error (PyErr.keyError "apply_to")
    | some ap =>
      match d.price_formula with
      | none => .error (PyErr.keyError "price_formula")
      | some pf => .ok { text_for_search := ts, apply_to := ap, price_formula := pf, info_text := d.info_text }

/-- Scan loop of `Product._check_sale_status` (`parser.py:157-161`):
`sale_item["text_for_search"] in sale_text` is tested in configuration
order; on the first match the rule is built with `SaleParams.from_dict`
and the debug log's f-string reads `sale_item['info_text']` with brackets,
so a matching rule missing any of those keys raises `KeyError`. -/
def check_sale_loop (sale_text : String) : List RuleDict → Except PyErr (Option SaleParams)
  | [] => .ok none
  | d :: rest =>
    match d.text_for_search with
    | none => .error (PyErr.keyError "text_for_search")
    | some ts =>
      if strContains ts sale_text then
        match SaleParams.from_dict d with
        | .error e => .error e
        | .ok sp =>
          match d.info_text with
          | none => .error (PyErr.keyError "info_text")
          | some _ => .ok (some sp)
      else check_sale_loop sale_text rest

/-- Embeds `Product._check_sale_status` (`parser.py:150-162`).  `sale_text` is
`none` when the `product-item__message` block or its
`product-item__attention` tag is absent; otherwise it is that tag's
stripped text.  `sale_list` is the configured rule list. -/
def check_sale_status (sale_text : Option String) (sale_list : List RuleDict) :
    Except PyErr (Option SaleParams) :=
  match sale_text with
  | none => .ok none
  | some txt => check_sale_loop txt sale_list

/-- The DOM facts about one `div.variant` element that
`Product._parse_variant` consumes: its `title` attribute, whether an
`i.eu.rus` marker child exists, and its `data-price` attribute. -/
structure VariantElem where
  title : Option String := none
  has_eu_marker : Bool := false
  data_price : Option String := none
deriving DecidableEq, Repr

/-- Embeds `Variant` (`parser.py:40-52`).  `price` is a rational because the
formula result (a Python float) is stored unrounded. -/
structure Variant where
  title : Option String
  eu : Bool
  price : ℚ
  sale_params : Option SaleParams := none
  info : String := ""
deriving DecidableEq, Repr

/-- Embeds `Product._extract_price` (`parser.py:164-171`): `None` unless the
`data-price` attribute is present, non-empty and all decimal digits. -/
def extract_price (e : VariantElem) : Option Nat :=
  match e.data_price with
  | none => none
  | some s =>
    if s.toList ≠ [] ∧ s.toList.all Char.isDigit then some (digitsToNat s.toList)
    else none

/-- The note built in the `except` branch of
`Product._calculate_final_price` (`parser.py:188`). -/
def formulaErrorInfo (info_text : Option String) (formula : String) : String :=
  (match info_text with
   | some t => if t = "" then "" else t ++ ", but "
   | none => "") ++ "Error applying sale formula " ++ apos ++ formula ++ apos

/-- Embeds `Product._calculate_final_price` (`parser.py:173-191`).  The
region-applicability test is the source's
`(eu and apply_to["eu"]) or (not eu and apply_to["ua"])`; a failed
`eval` is caught and falls back to the base price with the error note. -/
def calculate_final_price (base_price : ℚ) (eu : Bool) (sale_params : Option SaleParams) :
    ℚ × String :=
  match sale_params with
  | none => (base_price, "")
  | some sp =>
    if (eu && sp.apply_to.eu) || (!eu && sp.apply_to.ua) then
      match evalFormula sp.price_formula base_price with
      | some v => (v, pyOrStr sp.info_text "")
      | none => (base_price, formulaErrorInfo sp.info_text sp.price_formula)
    else (base_price, "")

/-- Embeds `Product._parse_variant` (`parser.py:200-223`): extracts title, the EU
marker and the price; drops the element (returns `None`) when the price is
invalid; otherwise builds the `Variant` with
`sale_params if final_price != base_price else None`.  Nothing in the
embedded fragment can raise inside the `try`, so the handler path does
not occur. -/
def parse_variant (e : VariantElem) (sale_params : Option SaleParams) : Option Variant :=
  match extract_price e with
  | none => none
  | some bp =>
    let fi := calculate_final_price (bp : ℚ) e.has_eu_marker sale_params
    some { title := e.title, eu := e.has_eu_marker, price := fi.1,
           sale_params := if fi.1 ≠ (bp : ℚ) then sale_params else none,
           info := fi.2 }

/-- Embeds `Product._parse_variants` (`parser.py:225-235`): each `div.variant`
element's parse result is appended to `positions` as-is — including the
`None` results of dropped variants. -/
def parse_variants (elems : List VariantElem) (sale_params : Option SaleParams) :
    List (Option Variant) :=
  elems.map (fun e => parse_variant e sale_params)

/-- Embeds `Product` (`parser.py:54-73`).  `positions` is the raw result of
`_parse_variants`, so possibly containing `None` entries. -/
structure Product where
  name : String
  brand : String
  url : String
  positions : List (Option Variant)
  info : Option String := none
  sale_params : Option SaleParams := none
  has_error : Bool := false
  ref_price : Option Int := none
deriving DecidableEq, Repr

/-! ## Driver (`make_xlsx.py`) -/

/-- One output row of `process_product_row` (the 8-element Python list):
brand, name, variant title, reference price, makeup price, region, info,
url.  Cells that the source fills with `None` are options. -/
structure Row where
  brand : String
  name : String
  variant_title : Option String
  r_price : Int
  m_price : Option ℚ
  region : Option String
  info : String
  url : String
deriving DecidableEq, Repr

/-- The variant loop of `process_product_row` (`make_xlsx.py:86-100`).
Accessing `.title` on a `None` entry of `positions` raises
`AttributeError`.  The title filter is skipped when `target_variant` is
`None` or empty (both falsy). -/
def rows_of_positions (p : Product) (ref_price : Int) (target_variant : Option String) :
    List (Option Variant) → Except PyErr (List Row)
  | [] => .ok []
  | none :: _ => .error PyErr.attrError
  | some v :: rest =>
    match rows_of_positions p ref_price target_variant rest with
    | .error e => .error e
    | .ok tail =>
      let skip :=
        match target_variant with
        | none => false
        | some t => if t = "" then false else !(strContains t (v.title.getD ""))
      if skip then .ok tail
      else if v.price < (ref_price : ℚ) || p.has_error then
        .ok ({ brand := p.brand, name := p.name, variant_title := v.title,
               r_price := ref_price, m_price := some v.price,
               region := some (if v.eu then "EU" else "UA"),
               info := pyOrStr p.info "", url := p.url } :: tail)
      else .ok tail

/-- Embeds `process_product_row` (`make_xlsx.py:66-102`): a product with no
positions yields one diagnostic row when `has_error` and `None`
otherwise; with positions, the kept variant rows, or `None` when the
filter keeps nothing. -/
def process_product_row (p : Product) (ref_price : Int) (target_variant : Option String) :
    Except PyErr (Option (List Row)) :=
  if p.positions = [] then
    if p.has_error then
      .ok (some [{ brand := p.brand, name := p.name, variant_title := none,
                   r_price := ref_price, m_price := none, region := none,
                   info := pyOrStr p.info "Error - no positions", url := p.url }])
    else .ok none
  else
    match rows_of_positions p ref_price target_variant p.positions with
    | .error e => .error e
    | .ok rows => if rows = [] then .ok none else .ok (some rows)

/-- The three report categories of `process_product_list`. -/
inductive Category where
  | sale | regular | error
deriving DecidableEq, Repr

/-- The classification branch of `process_product_list`
(`make_xlsx.py:140-148`): a skipped product (`processed_rows is None`)
lands nowhere; otherwise `has_error` wins, then the product-level
`sale_params`, else regular. -/
def classify_product (p : Product) (ref_price : Int) (target_variant : Option String) :
    Except PyErr (Option Category) :=
  match process_product_row p ref_price target_variant with
  | .error e => .error e
  | .ok none => .ok none
  | .ok (some _) =>
    .ok (some (if p.has_error then Category.error
               else if p.sale_params.isSome then Category.sale
               else Category.regular))

/-! ## Reference-price parsing (`make_xlsx.py:55-64`) -/

/-- One input CSV row `(url, title_filter, ref_price_usd, ref_price_uah)`. -/
structure InputRow where
  url : String
  title_filter : String
  usd : String
  uah : String
deriving DecidableEq, Repr

/-- Models the comma-to-dot replacement applied to the USD cell before
the float conversion. -/
def replaceCommaDot (s : String) : String :=
  String.mk (s.toList.map (fun c => if c = ',' then '.' else c))

/-- Python `float(s)` restricted to plain signed decimal literals, the
shapes CSV price cells take; the value is exact here (`"10"`, `"41.5"`
are exactly representable). -/
def parseDecimal (s : String) : Option ℚ :=
  let cs := s.toList
  let core := match cs with
    | c :: rest => if c = '-' then (true, rest) else (false, cs)
    | [] => (false, [])
  let ip := core.2.takeWhile (fun c => c ≠ '.')
  let fp := core.2.dropWhile (fun c => c ≠ '.')
  let mag : Option ℚ :=
    match fp with
    | [] => if ip ≠ [] ∧ ip.all Char.isDigit then some (digitsToNat ip) else none
    | _ :: frac =>
      if (ip ++ frac).all Char.isDigit ∧ (ip ≠ [] ∨ frac ≠ []) then
        some ((digitsToNat ip : ℚ) + (digitsToNat frac : ℚ) / ((10 : ℚ) ^ frac.length))
      else none
  mag.map (fun q => if core.1 then -q else q)

/-- Python `int(s)` on a signed digit string. -/
def parsePyInt (s : String) : Option Int :=
  match s.toList with
  | [] => none
  | c :: rest =>
    if c = '-' then
      if rest ≠ [] ∧ rest.all Char.isDigit then some (-(digitsToNat rest : Int)) else none
    else if s.toList.all Char.isDigit then some (digitsToNat s.toList : Int)
    else none

/-- Python 3 `round` to an integer: round half to even.  Written on the
numerator/denominator so the kernel can evaluate it: with
`f = ⌊q⌋ = num.fdiv den` and remainder `r = (num - f*den)/den ∈ [0,1)`,
compare `r` with `1/2` by cross-multiplying with the positive `den`. -/
def pyRound (q : ℚ) : Int :=
  let f : Int := q.num.fdiv (q.den : Int)
  let rnum : Int := q.num - f * (q.den : Int)
  if 2 * rnum < (q.den : Int) then f
  else if (q.den : Int) < 2 * rnum then f + 1
  else if f % 2 = 0 then f else f + 1

/-- Embeds `parse_ref_price` (`make_xlsx.py:55-64`): a non-empty USD cell is
converted with the USD rate and rounded; only when it is empty is the
UAH cell consulted; a `ValueError` from either conversion yields `None`
without falling through to the other cell. -/
def parse_ref_price (row : InputRow) (usd_rate : ℚ) : Option Int :=
  if row.usd ≠ "" then
    match parseDecimal (replaceCommaDot row.usd) with
    | some q => some (pyRound (q * usd_rate))
    | none => none
  else if row.uah ≠ "" then
    match parsePyInt row.uah with
    | some n => some n
    | none => none
  else none

/-! ## Helper lemmas -/

theorem strContains_right (p n : String) : strContains n (p ++ n) = true := by
  unfold strContains listHas
  have hd : (p ++ n).toList = p.toList ++ n.toList := rfl
  have hpref : ∀ l : List Char, l.isPrefixOf l = true := by
    intro l
    induction l with
    | nil => rfl
    | cons c cs ih => simp [List.isPrefixOf, ih]
  rw [hd, List.any_eq_true]
  exact ⟨n.toList, (List.mem_tails _ _).mpr (List.suffix_append _ _), hpref n.toList⟩

/-! ## C1: no-op suppression of the applied rule -/

/-- C1.  When a rule applies to the variant's region and its formula
evaluates successfully on the base price, the built `Variant` carries the
evaluated value as its price; its `sale_params` is the rule exactly when
the value differs from the base price, and `null` when the formula was a
no-op for this price. -/
theorem parse_variant_noop_suppression (e : VariantElem) (sp : SaleParams) (bp : Nat) (v : ℚ)
    (hp : extract_price e = some bp)
    (ha : ((e.has_eu_marker && sp.apply_to.eu) || (!e.has_eu_marker && sp.apply_to.ua)) = true)
    (he : evalFormula sp.price_formula (bp : ℚ) = some v) :
    parse_variant e (some sp)
      = some { title := e.title, eu := e.has_eu_marker, price := v,
               sale_params := if v = (bp : ℚ) then none else some sp,
               info := pyOrStr sp.info_text "" } := by
  by_cases hv : v = (bp : ℚ) <;>
    simp [parse_variant, hp, calculate_final_price, ha, he, hv]

/-- Witness for C1 at a no-op formula `x` on base price 5. -/
theorem parse_variant_noop_suppression_witness :
    parse_variant { title := some "t", has_eu_marker := false, data_price := some "5" }
        (some { text_for_search := "s", apply_to := { ua := true, eu := true },
                price_formula := "x" })
      = some { title := some "t", eu := false, price := 5, sale_params := none, info := "" } := by
  have h := parse_variant_noop_suppression
    { title := some "t", has_eu_marker := false, data_price := some "5" }
    { text_for_search := "s", apply_to := { ua := true, eu := true }, price_formula := "x" }
    5 5 (by decide) (by decide) (by decide)
  simpa [pyOrStr] using h

/-! ## C6: rule not applicable to the variant's region -/

/-- C6.  When the rule's `apply_to` flag for the variant's region is
false, price calculation returns the base price with an empty note, and
the built `Variant` has `sale_params = null`. -/
theorem rule_not_applicable_leaves_price (sp : SaleParams) :
    (∀ (q : ℚ) (eu : Bool), ((eu && sp.apply_to.eu) || (!eu && sp.apply_to.ua)) = false →
      calculate_final_price q eu (some sp) = (q, ""))
    ∧ (∀ (e : VariantElem) (bp : Nat), extract_price e = some bp →
        ((e.has_eu_marker && sp.apply_to.eu) || (!e.has_eu_marker && sp.apply_to.ua)) = false →
        parse_variant e (some sp)
          = some { title := e.title, eu := e.has_eu_marker, price := (bp : ℚ),
                   sale_params := none, info := "" }) := by
  constructor
  · intro q eu ha
    simp [calculate_final_price, ha]
  · intro e bp hp ha
    simp [parse_variant, hp, calculate_final_price, ha]

/-- Witness for C6: an EU variant with a UA-only rule keeps its base
price 7 and no sale marking. -/
theorem rule_not_applicable_leaves_price_witness :
    parse_variant { title := some "t", has_eu_marker := true, data_price := some "7" }
        (some { text_for_search := "s", apply_to := { ua := true, eu := false },
                price_formula := "x*2/3" })
      = some { title := some "t", eu := true, price := 7, sale_params := none, info := "" } :=
  (rule_not_applicable_leaves_price
      { text_for_search := "s", apply_to := { ua := true, eu := false },
        price_formula := "x*2/3" }).2
    { title := some "t", has_eu_marker := true, data_price := some "7" }
    7 (by decide) (by decide)

/-! ## C2: formula evaluation failure is recovered per-variant -/

/-- C2.  A failing formula evaluation never escapes: the variant keeps
its base price, carries the `Error applying sale formula` note (prefixed
with the rule's `info_text` joined by `, but ` when present and
non-empty), ends with `sale_params = null`; `x/0` and `x+` always fail;
and the surrounding variant-list processing is elementwise, so the other
variant elements are still extracted. -/
theorem formula_failure_recovers (e : VariantElem) (sp : SaleParams) (bp : Nat)
    (hp : extract_price e = some bp)
    (ha : ((e.has_eu_marker && sp.apply_to.eu) || (!e.has_eu_marker && sp.apply_to.ua)) = true)
    (he : evalFormula sp.price_formula (bp : ℚ) = none) :
    parse_variant e (some sp)
      = some { title := e.title, eu := e.has_eu_marker, price := (bp : ℚ),
               sale_params := none,
               info := formulaErrorInfo sp.info_text sp.price_formula }
    ∧ strContains ("Error applying sale formula " ++ apos ++ sp.price_formula ++ apos)
        (formulaErrorInfo sp.info_text sp.price_formula) = true
    ∧ (∀ t, sp.info_text = some t → t ≠ "" →
        formulaErrorInfo sp.info_text sp.price_formula
          = t ++ ", but " ++ ("Error applying sale formula " ++ apos ++ sp.price_formula ++ apos))
    ∧ (∀ q : ℚ, evalFormula "x/0" q = none ∧ evalFormula "x+" q = none)
    ∧ (∀ pre post,
        parse_variants (pre ++ e :: post) (some sp)
          = parse_variants pre (some sp)
              ++ parse_variant e (some sp) :: parse_variants post (some sp)) := by
  refine ⟨?_, ?_, ?_, ?_, ?_⟩
  · simp [parse_variant, hp, calculate_final_price, ha, he]
  · have hsplit : formulaErrorInfo sp.info_text sp.price_formula
        = (match sp.info_text with
           | some t => if t = "" then "" else t ++ ", but "
           | none => "")
          ++ ("Error applying sale formula " ++ apos ++ sp.price_formula ++ apos) := by
      simp [formulaErrorInfo, String.append_assoc]
    rw [hsplit]
    exact strContains_right _ _
  · intro t ht hne
    simp only [formulaErrorInfo, ht, if_neg hne, String.append_assoc]
  · intro q
    refine ⟨?_, ?_⟩
    · have hp0 : parseFormula "x/0" = some (Expr.div (Expr.var "x") (Expr.num 0)) := by decide
      simp [evalFormula, hp0, evalExpr, PyVal.toRat]
    · have hp1 : parseFormula "x+" = none := by decide
      simp [evalFormula, hp1]
  · intro pre post
    simp [parse_variants]

/-- Witness for C2 at formula `x/0`, base price 5, info text `promo`. -/
theorem formula_failure_recovers_witness :
    parse_variant { title := some "t", has_eu_marker := false, data_price := some "5" }
        (some { text_for_search := "s", apply_to := { ua := true, eu := true },
                price_formula := "x/0", info_text := some "promo" })
      = some { title := some "t", eu := false, price := 5, sale_params := none,
               info := formulaErrorInfo (some "promo") "x/0" } := by
  have h := (formula_failure_recovers
    { title := some "t", has_eu_marker := false, data_price := some "5" }
    { text_for_search := "s", apply_to := { ua := true, eu := true },
      price_formula := "x/0", info_text := some "promo" }
    5 (by decide) (by decide) (by decide)).1
  simpa using h

/-! ## C3: first-match rule scanning -/

/-- A configuration rule dict carrying all the keys the scan loop and the
rule constructor read. -/
def RuleDict.complete (d : RuleDict) : Prop :=
  d.text_for_search ≠ none ∧ d.apply_to ≠ none ∧ d.price_formula ≠ none ∧ d.info_text ≠ none

instance (d : RuleDict) : Decidable d.complete := by
  unfold RuleDict.complete
  infer_instance

/-- Total conversion of a complete rule dict. -/
def RuleDict.toSale (d : RuleDict) : SaleParams :=
  { text_for_search := d.text_for_search.getD ""
    apply_to := d.apply_to.getD { ua := false, eu := false }
    price_formula := d.price_formula.getD ""
    info_text := d.info_text }

theorem from_dict_complete (d : RuleDict) (h : d.complete) :
    SaleParams.from_dict d = .ok d.toSale := by
  obtain ⟨h1, h2, h3, _⟩ := h
  obtain ⟨ts, hts⟩ := Option.ne_none_iff_exists'.mp h1
  obtain ⟨ap, hap⟩ := Option.ne_none_iff_exists'.mp h2
  obtain ⟨pf, hpf⟩ := Option.ne_none_iff_exists'.mp h3
  simp [SaleParams.from_dict, RuleDict.toSale, hts, hap, hpf]

/-- The spec's description of rule matching, stated independently of the
scan loop: the first rule in configuration order whose trigger phrase is
a substring of the promotional text, `none` when the text is absent or
nothing matches. -/
def specFirstMatch (sale_text : Option String) (sale_list : List RuleDict) : Option RuleDict :=
  sale_text.bind fun txt =>
    sale_list.find? fun d => strContains (d.text_for_search.getD "") txt

theorem check_sale_loop_first_match (txt : String) (rules : List RuleDict) :
    (∀ d ∈ rules, d.complete) →
    check_sale_loop txt rules
      = .ok ((rules.find? fun d => strContains (d.text_for_search.getD "") txt).map
          RuleDict.toSale) := by
  induction rules with
  | nil => intro _; simp [check_sale_loop]
  | cons d rest ih =>
    intro h
    have hd := h d (List.mem_cons_self d rest)
    obtain ⟨ts, hts⟩ := Option.ne_none_iff_exists'.mp hd.1
    obtain ⟨it, hit⟩ := Option.ne_none_iff_exists'.mp hd.2.2.2
    by_cases hc : strContains ts txt
    · simp [check_sale_loop, hts, hc, from_dict_complete d hd, hit, List.find?]
    · have ih' := ih (fun x hx => h x (List.mem_cons_of_mem d hx))
      simp [check_sale_loop, hts, hc, List.find?, ih']

/-- C3.  `_check_sale_status` scans the configured rules in order and
returns the first whose `text_for_search` occurs in the promotional
text, `null` when the promotional text is absent or no rule matches —
i.e. it refines the first-match specification (for rule dicts carrying
all the keys the loop reads, since the scan's bracket accesses would
otherwise raise). -/
theorem check_sale_status_first_match (sale_text : Option String) (sale_list : List RuleDict)
    (h : ∀ d ∈ sale_list, d.complete) :
    check_sale_status sale_text sale_list
      = .ok ((specFirstMatch sale_text sale_list).map RuleDict.toSale) := by
  cases sale_text with
  | none => simp [check_sale_status, specFirstMatch]
  | some txt =>
    simpa [check_sale_status, specFirstMatch] using check_sale_loop_first_match txt sale_list h

/-- Witness for C3: two complete rules whose trigger phrases both occur
in the promotional text; the earlier-configured one is returned. -/
theorem check_sale_status_first_match_witness :
    check_sale_status (some "ab")
        [{ text_for_search := some "a", apply_to := some { ua := true, eu := false },
           price_formula := some "x", info_text := some "one" },
         { text_for_search := some "b", apply_to := some { ua := true, eu := true },
           price_formula := some "x", info_text := some "two" }]
      = .ok (some { text_for_search := "a", apply_to := { ua := true, eu := false },
                    price_formula := "x", info_text := some "one" }) := by
  rw [check_sale_status_first_match _ _ (by decide)]
  decide

/-! ## C7: the ternary gift formula at 500 and 800 -/

/-- The configured Bourjois gift rule's essentials (`config.py` default
`sale_list`, second entry): formula `x-100 if x>680 else x`, applies to
UA only. -/
def ruleC7 : SaleParams :=
  { text_for_search := "g", apply_to := { ua := true, eu := false },
    price_formula := "x-100 if x>680 else x" }

/-- C7.  Under the rule `x-100 if x>680 else x` (applicable to the
variant's UA region), base price 500 yields final price 500 with the
rule suppressed as a no-op, and base price 800 yields 700 with
`sale_params` set to the rule. -/
theorem ternary_formula_variants :
    parse_variant { title := some "V", has_eu_marker := false, data_price := some "500" }
        (some ruleC7)
      = some { title := some "V", eu := false, price := 500, sale_params := none, info := "" }
    ∧ parse_variant { title := some "V", has_eu_marker := false, data_price := some "800" }
        (some ruleC7)
      = some { title := some "V", eu := false, price := 700, sale_params := some ruleC7,
               info := "" } := by
  constructor
  · decide
  · have hp : extract_price ⟨some "V", false, some "800"⟩ = some 800 := by decide
    simp [parse_variant, hp, calculate_final_price, ruleC7, evalFormula_ternary, pyOrStr]
    norm_num

/-! ## C8: exact division in `x*2/3` -/

/-- The configured 1+1=3 rule's essentials (`config.py` default
`sale_list`, first entry): formula `x*2/3`, applies to UA only. -/
def ruleC8 : SaleParams :=
  { text_for_search := "s", apply_to := { ua := true, eu := false },
    price_formula := "x*2/3" }

/-- C8.  Under the rule `x*2/3` applicable to a UA variant, base price
900 yields exactly 600 — the evaluator's division is exact and
unrounded — with `sale_params` set to the rule. -/
theorem mul_div_formula_variant :
    parse_variant { title := some "V", has_eu_marker := false, data_price := some "900" }
        (some ruleC8)
      = some { title := some "V", eu := false, price := 600, sale_params := some ruleC8,
               info := "" }
    ∧ evalFormula "x*2/3" 900 = some ((900 : ℚ) * 2 / 3)
    ∧ (900 : ℚ) * 2 / 3 = 600 := by
  refine ⟨?_, evalFormula_mul_div 900, by norm_num⟩
  have hp : extract_price ⟨some "V", false, some "900"⟩ = some 900 := by decide
  simp [parse_variant, hp, calculate_final_price, ruleC8, evalFormula_mul_div, pyOrStr]
  norm_num

/-! ## C4: invalid-price variants are appended as `None`, not dropped -/

/-- C4 (code behavior at the failing input).  A variant element whose
`data-price` is non-numeric makes `_extract_price` return `None`, and
`_parse_variants` appends that `None` to the positions list instead of
dropping it — the later elements are still extracted, and nothing is
recorded on the product (the failure is only logged). -/
theorem parse_variants_appends_none :
    extract_price { title := some "A", has_eu_marker := false, data_price := some "abc" } = none
    ∧ extract_price { title := some "A", has_eu_marker := false, data_price := none } = none
    ∧ parse_variants
        [{ title := some "A", has_eu_marker := false, data_price := some "abc" },
         { title := some "B", has_eu_marker := false, data_price := some "100" }] none
      = [none,
         some { title := some "B", eu := false, price := 100, sale_params := none,
                info := "" }] := by
  refine ⟨by decide, by decide, by decide⟩

/-! ## C5: product classification in the driver -/

/-- A product-level rule whose formula is the identity: it matches on the
page but is a no-op on every variant. -/
def ruleC5 : SaleParams :=
  { text_for_search := "s", apply_to := { ua := true, eu := true }, price_formula := "x" }

def variantC5 : Variant :=
  { title := some "t", eu := false, price := 50, sale_params := none, info := "" }

def productC5 : Product :=
  { name := "N", brand := "B", url := "u", positions := [some variantC5],
    sale_params := some ruleC5 }

/-- Counterexample to C5 as stated: `productC5`'s only (included) variant
has `sale_params = null` after no-op suppression, so the claim predicts
`regular`; the driver classifies it `sale`, because the branch tests the
product-level `sale_params` (the page-matched rule), not the variants. -/
theorem classify_product_counterexample :
    classify_product productC5 100 none = .ok (some Category.sale)
    ∧ productC5.positions = [some variantC5]
    ∧ variantC5.sale_params = none
    ∧ productC5.has_error = false
    ∧ process_product_row productC5 100 none
        = .ok (some [{ brand := "B", name := "N", variant_title := some "t", r_price := 100,
                       m_price := some 50, region := some "UA", info := "", url := "u" }]) := by
  refine ⟨by decide, by decide, by decide, by decide, by decide⟩

/-- Copy of a product with every variant-level `sale_params` erased. -/
def stripVariantSales (p : Product) : Product :=
  { p with positions := p.positions.map (Option.map fun v => { v with sale_params := none }) }

theorem rows_of_positions_strip (p : Product) (ref_price : Int) (t : Option String)
    (l : List (Option Variant)) :
    rows_of_positions (stripVariantSales p) ref_price t
        (l.map (Option.map fun v => { v with sale_params := none }))
      = rows_of_positions p ref_price t l := by
  induction l with
  | nil => rfl
  | cons ov rest ih =>
    cases ov with
    | none => rfl
    | some v =>
      simp only [List.map_cons, Option.map_some', rows_of_positions]
      rw [ih]
      rfl

theorem process_product_row_strip (p : Product) (ref_price : Int) (t : Option String) :
    process_product_row (stripVariantSales p) ref_price t = process_product_row p ref_price t := by
  unfold process_product_row
  have hpos : (stripVariantSales p).positions
      = p.positions.map (Option.map fun v => { v with sale_params := none }) := rfl
  by_cases hz : p.positions = []
  · rw [hpos, hz]
    rfl
  · have hz' : p.positions.map (Option.map fun v => { v with sale_params := none }) ≠ [] := by
      simpa using hz
    rw [hpos, if_neg hz', if_neg hz, rows_of_positions_strip p ref_price t p.positions]

/-- C5 as amended.  A product contributing at least one output row is
classified `error` exactly when `has_error` is set; otherwise it is
classified `sale` if and only if the product-level `sale_params` — the
rule matched on the page, independent of per-variant no-op suppression —
is non-null, else `regular`.  Classification is invariant under erasing
every variant-level `sale_params`. -/
theorem classify_product_amended (p : Product) (ref_price : Int) (t : Option String) :
    (∀ rows, process_product_row p ref_price t = .ok (some rows) →
      rows ≠ []
      ∧ classify_product p ref_price t
          = .ok (some (if p.has_error then Category.error
                       else if p.sale_params.isSome then Category.sale else Category.regular)))
    ∧ classify_product (stripVariantSales p) ref_price t = classify_product p ref_price t := by
  constructor
  · intro rows h
    constructor
    · intro hnil
      subst hnil
      unfold process_product_row at h
      by_cases hz : p.positions = []
      · rw [if_pos hz] at h
        by_cases he : p.has_error
        · rw [if_pos he] at h
          exact absurd (Except.ok.inj h) (by simp)
        · rw [if_neg he] at h
          exact absurd (Except.ok.inj h) (by simp)
      · rw [if_neg hz] at h
        cases hr : rows_of_positions p ref_price t p.positions with
        | error e => rw [hr] at h; exact Except.noConfusion h
        | ok rows' =>
          rw [hr] at h
          by_cases hz' : rows' = [] <;> simp [hz'] at h
    · simp [classify_product, h]
  · unfold classify_product
    rw [process_product_row_strip]
    rfl

/-- Witness for the amended C5 at `productC5`. -/
theorem classify_product_amended_witness :
    ([{ brand := "B", name := "N", variant_title := some "t", r_price := 100,
        m_price := some 50, region := some "UA", info := "", url := "u" }] : List Row) ≠ []
    ∧ classify_product productC5 100 none
        = .ok (some (if productC5.has_error then Category.error
                     else if productC5.sale_params.isSome then Category.sale
                     else Category.regular)) :=
  (classify_product_amended productC5 100 none).1 _ (by decide)

/-! ## C9: rule-dict loading -/

/-- Counterexample to C9 as stated: a rule whose `price_formula` is the
syntactically invalid `x+` loads successfully — no `ConfigError` (the
class is defined in `exceptions.py` but raised nowhere), no syntactic
validation. -/
theorem from_dict_accepts_invalid_formula :
    SaleParams.from_dict
        { text_for_search := some "s", apply_to := some { ua := true, eu := false },
          price_formula := some "x+" }
      = .ok { text_for_search := "s", apply_to := { ua := true, eu := false },
              price_formula := "x+" }
    ∧ parseFormula "x+" = none
    ∧ (∀ q : ℚ, evalFormula "x+" q = none) := by
  refine ⟨by decide, by decide, ?_⟩
  intro q
  have hp1 : parseFormula "x+" = none := by decide
  simp [evalFormula, hp1]

/-- C9 as amended.  Converting a rule dict missing `text_for_search`,
`apply_to` or `price_formula` raises `KeyError` (the first missing key in
source order), not `ConfigError`; when all three keys are present the
conversion succeeds no matter what string `price_formula` holds. -/
theorem from_dict_keyerrors (d : RuleDict) :
    (SaleParams.from_dict d = .error (PyErr.keyError "text_for_search")
      ↔ d.text_for_search = none)
    ∧ (d.text_for_search ≠ none →
        (SaleParams.from_dict d = .error (PyErr.keyError "apply_to") ↔ d.apply_to = none))
    ∧ (d.text_for_search ≠ none → d.apply_to ≠ none →
        (SaleParams.from_dict d = .error (PyErr.keyError "price_formula")
          ↔ d.price_formula = none))
    ∧ (∀ ts ap pf, d.text_for_search = some ts → d.apply_to = some ap →
        d.price_formula = some pf →
        SaleParams.from_dict d
          = .ok { text_for_search := ts, apply_to := ap, price_formula := pf,
                  info_text := d.info_text }) := by
  obtain ⟨ts, ap, pf, it⟩ := d
  cases ts <;> cases ap <;> cases pf <;> simp [SaleParams.from_dict]

/-- Witness for the amended C9: a dict missing only `apply_to` raises
`KeyError` for `apply_to`; a complete dict with formula `x+` loads. -/
theorem from_dict_keyerrors_witness :
    SaleParams.from_dict { text_for_search := some "s", price_formula := some "x*2/3" }
      = .error (PyErr.keyError "apply_to") :=
  ((from_dict_keyerrors
      { text_for_search := some "s", price_formula := some "x*2/3" }).2.1
    (by decide)).mpr rfl

/-! ## C10: reference-price parsing -/

/-- C10.  The input row `("https://site/product/1", "", "10", "")` at USD
rate 41.5 gives reference price `round(10 * 41.5) = 415`; and whenever
the USD cell is non-empty the UAH cell is ignored entirely. -/
theorem parse_ref_price_usd_precedence :
    parse_ref_price { url := "https://site/product/1", title_filter := "", usd := "10", uah := "" }
        (83 / 2)
      = some 415
    ∧ (∀ (url t u l l' : String) (r : ℚ), u ≠ "" →
        parse_ref_price { url := url, title_filter := t, usd := u, uah := l } r
          = parse_ref_price { url := url, title_filter := t, usd := u, uah := l' } r) := by
  constructor
  · have hd : parseDecimal (replaceCommaDot "10") = some 10 := by decide
    have harg : (10 : ℚ) * (83 / 2) = 415 := by norm_num
    have hr : pyRound 415 = 415 := by decide
    simp [parse_ref_price, hd, harg, hr]
  · intro url t u l l' r hu
    simp [parse_ref_price, hu]

/-- Witness for C10's precedence part: differing UAH cells are ignored
when the USD cell is non-empty. -/
theorem parse_ref_price_usd_precedence_witness :
    parse_ref_price { url := "u", title_filter := "", usd := "5", uah := "3" } 2
      = parse_ref_price { url := "u", title_filter := "", usd := "5", uah := "9" } 2 :=
  parse_ref_price_usd_precedence.2 "u" "" "5" "3" "9" 2 (by decide)

end Makeup
